import Mathlib

/-!
Shallow embedding of the radiance render-graph core (EffectNode and its
OpenGL loader worker, from src/src/OutputWindow.h) together with proofs
about the multi-pass paint algorithm, the ring-buffer addressing, the
effect-source line grammar, and the node mutation operations.
-/

namespace Radiance

/-! ### Lexical helpers (embedding the two QRegularExpression patterns) -/

/-- ASCII whitespace, as matched by the default (non-Unicode) backslash-s
class of QRegularExpression. -/
def isWS (c : Char) : Bool :=
  c = ' ' || c = '\t' || c = '\r' || c = '\x0b' || c = '\x0c'

/-- Word characters, as matched by the default backslash-w class. -/
def isWordChar (c : Char) : Bool :=
  ('a' ≤ c && c ≤ 'z') || ('A' ≤ c && c ≤ 'Z') || ('0' ≤ c && c ≤ '9') || c = '_'

/-- ASCII lower-casing, for the CaseInsensitiveOption of both patterns. -/
def lowerAscii (c : Char) : Char :=
  if 'A' ≤ c && c ≤ 'Z' then Char.ofNat (c.toNat + 32) else c

/-- Strip a (lower-case) literal keyword from the front of a character list,
comparing case-insensitively; returns the remainder on success. -/
def stripKeywordCI : List Char → List Char → Option (List Char)
  | [], s => some s
  | _ :: _, [] => none
  | k :: ks, c :: cs => if lowerAscii c = k then stripKeywordCI ks cs else none

/-- Embedding of matching a source line against
`^\s*#property\s+(?<name>\w+)\s+(?<value>.*)$` (case-insensitive):
returns the captured name and value on a match. -/
def propertyMatch (line : String) : Option (String × String) :=
  match stripKeywordCI "#property".data (line.data.dropWhile isWS) with
  | none => none
  | some rest =>
    match rest with
    | [] => none
    | c :: _ =>
      if isWS c then
        let r1 := rest.dropWhile isWS
        let name := r1.takeWhile isWordChar
        let r2 := r1.dropWhile isWordChar
        if name.isEmpty then none
        else
          match r2 with
          | [] => none
          | d :: _ =>
            if isWS d then some (String.mk name, String.mk (r2.dropWhile isWS))
            else none
      else none

/-- Embedding of matching a source line against
`^\s*#buffershader\s*$` (case-insensitive). -/
def bufferShaderMatch (line : String) : Bool :=
  match stripKeywordCI "#buffershader".data (line.data.dropWhile isWS) with
  | none => false
  | some rest => (rest.dropWhile isWS).isEmpty

/-- Split source text into lines the way QTextStream::readLineInto does:
newline-separated, with no phantom empty line after a trailing newline. -/
def splitLinesAux : List Char → List Char → List String
  | [], acc => if acc.isEmpty then [] else [String.mk acc.reverse]
  | c :: rest, acc =>
    if c = '\n' then String.mk acc.reverse :: splitLinesAux rest []
    else splitLinesAux rest (c :: acc)

def toLines (s : String) : List String :=
  splitLinesAux s.data []

/-! ### Association lists (for QMap of properties and of render states) -/

def alookup {α β : Type} [DecidableEq α] : List (α × β) → α → Option β
  | [], _ => none
  | (a, b) :: rest, c => if a = c then some b else alookup rest c

def aupdate {α β : Type} [DecidableEq α] : List (α × β) → α → β → List (α × β)
  | [], _, _ => []
  | (a, b) :: rest, c, v =>
    if a = c then (a, v) :: rest else (a, b) :: aupdate rest c v

/-- QMap::insert semantics: overwrite the value when the key is present,
otherwise add a new entry. -/
def ainsert {α β : Type} [DecidableEq α] (m : List (α × β)) (c : α) (v : β) :
    List (α × β) :=
  if (alookup m c).isSome then aupdate m c v else m ++ [(c, v)]

/-! ### The effect source line grammar (loadProgram's parsing loop) -/

/-- The line-number marker emitted for directive lines and pass starts. -/
def lineMarker (n : Nat) : String := "#line " ++ toString n

/-- `passes.back().append(s)` on a nonempty pass list. -/
def appendToLast : List (List String) → String → List (List String)
  | [], _ => []
  | [p], s => [p ++ [s]]
  | p :: q :: rest, s => p :: appendToLast (q :: rest) s

/-- The loader's line-by-line parsing loop: property directives go to the
map (replaced by a line marker), buffershader directives open a new pass,
anything else is appended to the current pass. -/
def parseLines :
    List String → Nat → List (List String) → List (String × String) →
      List (List String) × List (String × String)
  | [], _, ps, pr => (ps, pr)
  | ln :: rest, n, ps, pr =>
    match propertyMatch ln with
    | some kv =>
        parseLines rest (n + 1) (appendToLast ps (lineMarker n)) (ainsert pr kv.1 kv.2)
    | none =>
        if bufferShaderMatch ln then
          parseLines rest (n + 1) (ps ++ [[lineMarker n]]) pr
        else
          parseLines rest (n + 1) (appendToLast ps ln) pr

/-- Parse an effect source text, starting from one open pass seeded with
"#line 0" and the default property entry inputCount = "1". -/
def parseSource (src : String) : List (List String) × List (String × String) :=
  parseLines (toLines src) 0 [[lineMarker 0]] [("inputCount", "1")]

/-! ### Node data model -/

abbrev ChainId := Nat

structure EffectNodeRenderState where
  intermediate : List Nat
  textureIndex : Nat
deriving DecidableEq

/-- A fresh, empty render state (ring allocated lazily on first paint). -/
def freshRenderState : EffectNodeRenderState := ⟨[], 0⟩

structure EffectNodeState where
  name : String
  ready : Bool
  intensity : ℚ
  intensityIntegral : ℚ
  inputCount : Nat
  programs : List String
  renderStates : List (ChainId × EffectNodeRenderState)
deriving DecidableEq

/-- Observable notifications and log lines. -/
inductive Ev where
  | fatal (msg : String)
  | logDebug (msg : String)
  | nameChanged (n : String)
  | intensityChanged (v : ℚ)
  | dispatchLoad
  | loaded
deriving DecidableEq

/-! ### Multi-pass paint -/

/-- One executed pass: its ordinal, the ring slot of the framebuffer it
renders into, and for each pass ordinal k the ring slot whose texture is
bound as iChannel k. -/
structure PassExec where
  passIndex : Nat
  outSlot : Nat
  chans : List Nat
deriving DecidableEq

structure PaintResult where
  out : Nat
  state : EffectNodeState
  trace : List PassExec
  evs : List Ev
deriving DecidableEq

/-- Texture handles produced by the lazy framebuffer allocation. -/
def allocateRing (count : Nat) : List Nat :=
  (List.range count).map (fun i => i + 1)

/-- The sequence of draw operations of one paint call: pass ordinal j runs
from passCount-1 down to 0, renders into slot (idx+j+1) mod (passCount+1),
and binds channel k from slot (idx+k+(j<k)) mod (passCount+1). -/
def passTrace (passCount idx : Nat) : List PassExec :=
  (List.range passCount).reverse.map (fun j =>
    ⟨j, (idx + j + 1) % (passCount + 1),
      (List.range passCount).map (fun k =>
        (idx + k + (if j < k then 1 else 0)) % (passCount + 1))⟩)

/-- EffectNode::paint. Returns the output texture handle (0 when not ready
or when the chain is unknown), the updated node state, the trace of GPU
pass executions, and log events. -/
def paint (st : EffectNodeState) (chain : ChainId) (inputTextures : List Nat) :
    PaintResult :=
  if st.ready = false then ⟨0, st, [], [Ev.logDebug "is not ready"]⟩
  else
    match alookup st.renderStates chain with
    | none => ⟨0, st, [], [Ev.logDebug "does not have chain"]⟩
    | some rs0 =>
      let passCount := st.programs.length
      let rs1 := if rs0.intermediate.isEmpty
                 then { rs0 with intermediate := allocateRing (passCount + 1) }
                 else rs0
      let outTex := rs1.intermediate.getD ((rs1.textureIndex + 1) % (passCount + 1)) 0
      let rs2 := { rs1 with textureIndex := (rs1.textureIndex + 1) % (passCount + 1) }
      ⟨outTex, { st with renderStates := aupdate st.renderStates chain rs2 },
        passTrace passCount rs1.textureIndex, []⟩

/-- The state transformer of one paint call. -/
def stepPaint (chain : ChainId) (inputTextures : List Nat)
    (st : EffectNodeState) : EffectNodeState :=
  (paint st chain inputTextures).state

/-! ### Node mutation operations -/

def clampIntensity (v : ℚ) : ℚ :=
  let v1 := if v > 1 then 1 else v
  if v1 < 0 then 0 else v1

/-- EffectNode::setIntensity: clamp to the unit interval, return early
(no notification) when the stored value is unchanged. -/
def setIntensity (st : EffectNodeState) (v : ℚ) : EffectNodeState × List Ev :=
  let c := clampIntensity v
  if st.intensity = c then (st, [])
  else ({ st with intensity := c }, [Ev.intensityChanged c])

/-- EffectNode::setName: a same-name call does nothing; otherwise clear
ready, store the name, dispatch an asynchronous load, emit nameChanged. -/
def setName (st : EffectNodeState) (n : String) : EffectNodeState × List Ev :=
  if n = st.name then (st, [])
  else ({ st with ready := false, name := n }, [Ev.dispatchLoad, Ev.nameChanged n])

/-- EffectNode::reload: unconditionally clear ready and dispatch a load. -/
def reload (st : EffectNodeState) : EffectNodeState × List Ev :=
  ({ st with ready := false }, [Ev.dispatchLoad])

/-- EffectNode::copyBackRenderState: if the chain is still present in the
original, overwrite that entry with the snapshot's state for the chain;
otherwise only log. -/
def copyBackRenderState (st : EffectNodeState) (chain : ChainId)
    (copy : EffectNodeState) : EffectNodeState × List Ev :=
  match alookup st.renderStates chain with
  | some _ =>
      let snap := (alookup copy.renderStates chain).getD freshRenderState
      ({ st with renderStates := aupdate st.renderStates chain snap }, [])
  | none => (st, [Ev.logDebug "Chain was deleted during rendering"])

/-! ### The loader (EffectNodeOpenGLWorker) -/

/-- The GL and filesystem environment the worker runs against: the shared
header file, the effect source file looked up by name, and compile and
link success oracles. -/
structure ShaderEnv where
  header : Option String
  effectFile : String → Option String
  vertexOk : Bool
  fragOk : String → Bool
  linkOk : String → Bool

def effectPath (name : String) : String :=
  "../resources/effects/" ++ name ++ ".glsl"

inductive LoadErr where
  | headerMissing
  | effectMissing (path : String)
  | vertexCompileFailed
  | fragmentCompileFailed
  | linkFailed
  | noShadersFound (name : String)
deriving DecidableEq

/-- The exact fatal message text each failure emits. -/
def errMessage : LoadErr → String
  | .headerMissing => "Could not open \"../resources/effect_header.glsl\""
  | .effectMissing p => "Could not open \"" ++ p ++ "\""
  | .vertexCompileFailed => "Could not compile vertex shader"
  | .fragmentCompileFailed => "Could not compile fragment shader"
  | .linkFailed => "Could not link shader program"
  | .noShadersFound n => "No shaders found for \"" ++ n ++ "\""

/-- The fragment source assembled for one pass: shared header, newline,
then the pass's line buffer joined by newlines. -/
def fragSource (header : String) (pass : List String) : String :=
  header ++ "\n" ++ String.intercalate "\n" pass

/-- The per-pass compile-and-link loop: one program per pass, aborting on
the first vertex, fragment, or link failure. -/
def compileAll (env : ShaderEnv) (header : String) :
    List (List String) → Except LoadErr (List String)
  | [] => .ok []
  | pass :: rest =>
    if env.vertexOk = false then .error .vertexCompileFailed
    else
      let frag := fragSource header pass
      if env.fragOk frag = false then .error .fragmentCompileFailed
      else if env.linkOk frag = false then .error .linkFailed
      else
        match compileAll env header rest with
        | .error e => .error e
        | .ok ps => .ok (frag :: ps)

/-- EffectNodeOpenGLWorker::loadProgram, up to the point where the node is
touched: read the header, read the effect file, parse, compile every pass. -/
def loadProgramCore (env : ShaderEnv) (name : String) :
    Except LoadErr (List String) :=
  match env.header with
  | none => .error .headerMissing
  | some headerString =>
    match env.effectFile name with
    | none => .error (.effectMissing (effectPath name))
    | some src =>
      match compileAll env headerString (parseSource src).1 with
      | .error e => .error e
      | .ok programs =>
        if programs.isEmpty then .error (.noShadersFound name) else .ok programs

/-- EffectNodeOpenGLWorker::loadProgram as it acts on the node: on failure
emit one fatal event and leave the node untouched; on success replace the
program list (the parsed property map is not applied: that block is
commented out in the source). -/
def loadProgram (env : ShaderEnv) (name : String) (st : EffectNodeState) :
    Bool × EffectNodeState × List Ev :=
  match loadProgramCore env name with
  | .error e => (false, st, [Ev.fatal (errMessage e)])
  | .ok programs => (true, { st with programs := programs }, [])

/-- The worker's load entry point: run loadProgram for the node's current
name; on success the loaded signal sets the node ready. -/
def workerLoad (env : ShaderEnv) (st : EffectNodeState) :
    EffectNodeState × List Ev :=
  match loadProgram env st.name st with
  | (false, st1, evs) => (st1, evs)
  | (true, st1, evs) => ({ st1 with ready := true }, evs ++ [Ev.loaded])

/-! ### The named-setter registry, from the spec -/

def parsePropNat (s : String) : Option Nat :=
  if !s.data.isEmpty && s.data.all (fun c => '0' ≤ c && c ≤ '9')
  then some (s.data.foldl (fun a c => 10 * a + (c.toNat - '0'.toNat)) 0)
  else none

/-- Modelled from the spec: the property-application step of section 4.4
("each key in the parsed property map is looked up against the node's
named-setter registry and applied"), with the registry's documented
default entry inputCount; this step is absent from the code (the block
in loadProgram is commented out), so it is reconstructed here only to
compare against the code's actual behaviour. -/
def applyProperties (props : List (String × String)) (st : EffectNodeState) :
    EffectNodeState :=
  props.foldl (fun s kv =>
    if kv.1 = "inputCount" then
      match parsePropNat kv.2 with
      | some n => { s with inputCount := n }
      | none => s
    else s) st

/-! ### Substring containment (for reasoning about message contents) -/

def startsWithChars : List Char → List Char → Bool
  | [], _ => true
  | _ :: _, [] => false
  | p :: ps, t :: ts => p = t && startsWithChars ps ts

def hasSubList (pat : List Char) : List Char → Bool
  | [] => pat.isEmpty
  | c :: ts => startsWithChars pat (c :: ts) || hasSubList pat ts

/-- Whether pat occurs as a contiguous substring of s. -/
def containsSubstr (pat s : String) : Bool :=
  hasSubList pat.data s.data

/-! ### Concrete demonstration data (used by witnesses and counterexamples) -/

def demoRS : EffectNodeRenderState := ⟨[10, 20, 30], 0⟩

def demoSt : EffectNodeState :=
  { name := "e", ready := true, intensity := 0, intensityIntegral := 0,
    inputCount := 1, programs := ["A", "B"], renderStates := [(0, demoRS)] }

def demoStUnready : EffectNodeState :=
  { name := "e", ready := false, intensity := 0, intensityIntegral := 0,
    inputCount := 1, programs := [], renderStates := [] }

def demoStZ : EffectNodeState :=
  { name := "zzz", ready := false, intensity := 0, intensityIntegral := 0,
    inputCount := 1, programs := ["OLD"], renderStates := [] }

def demoCopy : EffectNodeState :=
  { name := "e", ready := true, intensity := 0, intensityIntegral := 0,
    inputCount := 1, programs := ["A", "B"], renderStates := [(0, ⟨[7, 8, 9], 1⟩)] }

def demoEnvFragFail : ShaderEnv :=
  { header := some "HDR", effectFile := fun n => if n = "zzz" then some "RED" else none,
    vertexOk := true, fragOk := fun _ => false, linkOk := fun _ => true }

def srcC4 : String := "#property inputCount 3\nRED"

def demoEnvC4 : ShaderEnv :=
  { header := some "HDR", effectFile := fun n => if n = "e" then some srcC4 else none,
    vertexOk := true, fragOk := fun _ => true, linkOk := fun _ => true }

def srcC5 : String := "#property foo 3\nLINE_A\n#buffershader\nLINE_B\n"

/-! ## Helper lemmas -/

theorem alookup_aupdate_self {α β : Type} [DecidableEq α] (m : List (α × β)) (c : α)
    (v : β) (h : (alookup m c).isSome = true) : alookup (aupdate m c v) c = some v := by
  induction m with
  | nil => simp [alookup] at h
  | cons p rest ih =>
    obtain ⟨a, b⟩ := p
    by_cases hac : a = c
    · subst hac; simp [alookup, aupdate]
    · simp only [alookup, aupdate, hac, if_false, if_neg hac] at h ⊢
      exact ih h

theorem alookup_aupdate_ne {α β : Type} [DecidableEq α] (m : List (α × β)) (c c' : α)
    (v : β) (h : c' ≠ c) : alookup (aupdate m c v) c' = alookup m c' := by
  induction m with
  | nil => simp [aupdate]
  | cons p rest ih =>
    obtain ⟨a, b⟩ := p
    by_cases hac : a = c
    · subst hac
      have hac' : ¬ (a = c') := fun hh => h hh.symm
      simp [alookup, aupdate, hac']
    · by_cases hac' : a = c' <;> simp [alookup, aupdate, hac, hac', h, ih]

theorem isEmpty_false_of_length_succ {l : List Nat} {n : Nat} (h : l.length = n + 1) :
    l.isEmpty = false := by
  cases l with
  | nil => simp at h
  | cons a t => rfl

theorem paint_not_ready (st : EffectNodeState) (chain : ChainId) (inputs : List Nat)
    (h : st.ready = false) :
    paint st chain inputs = ⟨0, st, [], [Ev.logDebug "is not ready"]⟩ := by
  simp [paint, h]

theorem paint_no_chain (st : EffectNodeState) (chain : ChainId) (inputs : List Nat)
    (h1 : st.ready = true) (h2 : alookup st.renderStates chain = none) :
    paint st chain inputs = ⟨0, st, [], [Ev.logDebug "does not have chain"]⟩ := by
  simp [paint, h1, h2]

theorem paint_trace_reduce (st : EffectNodeState) (chain : ChainId) (inputs : List Nat)
    (rs : EffectNodeRenderState) (h1 : st.ready = true)
    (h2 : alookup st.renderStates chain = some rs) :
    (paint st chain inputs).trace = passTrace st.programs.length rs.textureIndex := by
  cases he : rs.intermediate.isEmpty <;> simp [paint, h1, h2, he]

theorem paint_ready_step (st : EffectNodeState) (chain : ChainId) (inputs : List Nat)
    (rs : EffectNodeRenderState) (h1 : st.ready = true)
    (h2 : alookup st.renderStates chain = some rs)
    (hne : rs.intermediate.isEmpty = false) :
    paint st chain inputs =
      ⟨rs.intermediate.getD ((rs.textureIndex + 1) % (st.programs.length + 1)) 0,
       { st with renderStates := aupdate st.renderStates chain ⟨rs.intermediate, (rs.textureIndex + 1) % (st.programs.length + 1)⟩ },
       passTrace st.programs.length rs.textureIndex, []⟩ := by
  simp [paint, h1, h2, hne]

theorem passTrace_order (P r : Nat) :
    (passTrace P r).map PassExec.passIndex = (List.range P).reverse := by
  unfold passTrace
  rw [List.map_map]
  simp [Function.comp_def]

theorem passTrace_elem (P r : Nat) {e : PassExec} (he : e ∈ passTrace P r) (k : Nat)
    (hk : k < P) :
    e.passIndex < P
    ∧ e.outSlot = (r + e.passIndex + 1) % (P + 1)
    ∧ e.chans[k]? = some ((r + k + (if e.passIndex < k then 1 else 0)) % (P + 1)) := by
  unfold passTrace at he
  rw [List.mem_map] at he
  obtain ⟨j, hj, rfl⟩ := he
  rw [List.mem_reverse, List.mem_range] at hj
  refine ⟨hj, rfl, ?_⟩
  show ((List.range P).map fun k => (r + k + (if j < k then 1 else 0)) % (P + 1))[k]? = _
  rw [List.getElem?_map, List.getElem?_range hk]
  rfl

theorem setIntensity_intensity (st : EffectNodeState) (x : ℚ) :
    (setIntensity st x).1.intensity = clampIntensity x := by
  by_cases h : st.intensity = clampIntensity x
  · simp [setIntensity, ← h]
  · simp [setIntensity, h]

theorem clampIntensity_mem (x : ℚ) : 0 ≤ clampIntensity x ∧ clampIntensity x ≤ 1 := by
  unfold clampIntensity
  by_cases h1 : x > 1
  · norm_num [h1]
  · simp only [h1, if_false, if_neg h1]
    by_cases h2 : x < 0
    · simp [h2]
    · simp only [h2, if_false, if_neg h2]
      constructor <;> linarith

/-! ## Claim theorems -/

/-- C5 counterexample: on the source "#property foo 3\nLINE_A\n#buffershader\nLINE_B\n"
the parsed property map is NOT equal to the map with single entry foo ↦ "3": it also
contains the seeded default entry inputCount ↦ "1"; and the first pass body is not the
bare line LINE_A (pass bodies carry "#line" marker lines). -/
theorem parseSource_example_counterexample :
    alookup (parseSource srcC5).2 "inputCount" = some "1"
    ∧ alookup [("foo", "3")] "inputCount" = (none : Option String)
    ∧ (parseSource srcC5).1 ≠ [["LINE_A"], ["LINE_B"]] := by decide

/-- C5 (amended): parsing "#property foo 3\nLINE_A\n#buffershader\nLINE_B\n" yields the
property map with exactly the entries inputCount ↦ "1" (the seeded default) and
foo ↦ "3", and exactly two passes whose bodies, after their leading "#line" marker
lines, are LINE_A and LINE_B respectively; the #property and #buffershader directive
lines themselves are excluded from the pass bodies (each is replaced by a marker). -/
theorem parseSource_example :
    (parseSource srcC5).1 = [["#line 0", "#line 0", "LINE_A"], ["#line 2", "LINE_B"]]
    ∧ alookup (parseSource srcC5).2 "foo" = some "3"
    ∧ alookup (parseSource srcC5).2 "inputCount" = some "1"
    ∧ (parseSource srcC5).2.length = 2 := by decide

/-- C7: for every state and real x, after setIntensity x the stored intensity lies in
the unit interval; setIntensity (3/2) yields 1 and setIntensity (-1/5) yields 0
(out-of-range writes are clamped, not rejected); and a second setIntensity call with
the same argument emits no intensity-changed notification (it is a no-op). -/
theorem setIntensity_clamps (st : EffectNodeState) (x : ℚ) :
    0 ≤ (setIntensity st x).1.intensity
    ∧ (setIntensity st x).1.intensity ≤ 1
    ∧ (setIntensity (setIntensity st x).1 x).2 = []
    ∧ (setIntensity st (3 / 2)).1.intensity = 1
    ∧ (setIntensity st (-(1 / 5))).1.intensity = 0 := by
  refine ⟨?_, ?_, ?_, ?_, ?_⟩
  · rw [setIntensity_intensity]; exact (clampIntensity_mem x).1
  · rw [setIntensity_intensity]; exact (clampIntensity_mem x).2
  · have h' := setIntensity_intensity st x
    generalize (setIntensity st x).1 = st' at h'
    simp [setIntensity, h']
  · rw [setIntensity_intensity]; norm_num [clampIntensity]
  · rw [setIntensity_intensity]; norm_num [clampIntensity]

/-- C10: a setName call with the node's current name is a complete no-op (ready not
cleared, no load dispatched, no name-changed notification); setName with a different
name clears ready, stores the name, dispatches a load and emits nameChanged; and
reload unconditionally clears ready and dispatches a load. -/
theorem setName_same_noop_reload_forces (st : EffectNodeState) (n : String) :
    (n = st.name → setName st n = (st, []))
    ∧ (n ≠ st.name →
        setName st n = ({ st with ready := false, name := n },
          [Ev.dispatchLoad, Ev.nameChanged n]))
    ∧ reload st = ({ st with ready := false }, [Ev.dispatchLoad]) :=
  ⟨fun h => by simp [setName, h], fun h => by simp [setName, h], rfl⟩

theorem setName_same_noop_reload_forces_witness :
    setName demoStUnready "e" = (demoStUnready, [])
    ∧ setName demoStUnready "f" =
        ({ demoStUnready with ready := false, name := "f" },
          [Ev.dispatchLoad, Ev.nameChanged "f"]) :=
  ⟨(setName_same_noop_reload_forces demoStUnready "e").1 rfl,
   (setName_same_noop_reload_forces demoStUnready "f").2.1 (by decide)⟩

/-- C6: when the node is not ready, or the chain has no entry in the render-state map,
paint returns the null texture 0, leaves the whole node state (including every render
state and ring cursor) unchanged, issues no GPU pass, and logs the condition. -/
theorem paint_soft_failure (st : EffectNodeState) (chain : ChainId) (inputs : List Nat)
    (h : st.ready = false ∨ alookup st.renderStates chain = none) :
    (paint st chain inputs).out = 0
    ∧ (paint st chain inputs).state = st
    ∧ (paint st chain inputs).trace = []
    ∧ ((paint st chain inputs).evs = [Ev.logDebug "is not ready"]
        ∨ (paint st chain inputs).evs = [Ev.logDebug "does not have chain"]) := by
  rcases h with h | h
  · rw [paint_not_ready st chain inputs h]
    exact ⟨rfl, rfl, rfl, Or.inl rfl⟩
  · cases hr : st.ready
    · rw [paint_not_ready st chain inputs hr]
      exact ⟨rfl, rfl, rfl, Or.inl rfl⟩
    · rw [paint_no_chain st chain inputs hr h]
      exact ⟨rfl, rfl, rfl, Or.inr rfl⟩

theorem paint_soft_failure_witness :
    (paint demoStUnready 0 []).out = 0 ∧ (paint demoStUnready 0 []).state = demoStUnready :=
  ⟨(paint_soft_failure demoStUnready 0 [] (Or.inl rfl)).1,
   (paint_soft_failure demoStUnready 0 [] (Or.inl rfl)).2.1⟩

/-- C8: copyBackRenderState touches only the entry for the given chain: when the chain
is still present in the original's render-state map, that entry is overwritten with the
snapshot's corresponding state and nothing else of the node changes; when the chain was
removed during rendering, the call is a log-only no-op; in either case every other
chain's render state is left unchanged. -/
theorem copyBackRenderState_targets_only_chain (orig : EffectNodeState) (chain : ChainId)
    (copy : EffectNodeState) (crs : EffectNodeRenderState)
    (hc : alookup copy.renderStates chain = some crs) :
    ((alookup orig.renderStates chain).isSome = true →
        (copyBackRenderState orig chain copy).1 =
          { orig with renderStates := aupdate orig.renderStates chain crs }
        ∧ alookup (copyBackRenderState orig chain copy).1.renderStates chain = some crs
        ∧ (copyBackRenderState orig chain copy).2 = [])
    ∧ (alookup orig.renderStates chain = none →
        copyBackRenderState orig chain copy =
          (orig, [Ev.logDebug "Chain was deleted during rendering"]))
    ∧ (∀ c, c ≠ chain →
        alookup (copyBackRenderState orig chain copy).1.renderStates c =
          alookup orig.renderStates c) := by
  refine ⟨?_, ?_, ?_⟩
  · intro h
    obtain ⟨v, hv⟩ := Option.isSome_iff_exists.mp h
    have hred : copyBackRenderState orig chain copy =
        ({ orig with renderStates := aupdate orig.renderStates chain crs }, []) := by
      simp [copyBackRenderState, hv, hc]
    refine ⟨by rw [hred], ?_, by rw [hred]⟩
    rw [hred]
    exact alookup_aupdate_self orig.renderStates chain crs h
  · intro h
    simp [copyBackRenderState, h]
  · intro c hcne
    cases ho : alookup orig.renderStates chain with
    | none => simp [copyBackRenderState, ho]
    | some v =>
      have hred : copyBackRenderState orig chain copy =
          ({ orig with renderStates := aupdate orig.renderStates chain crs }, []) := by
        simp [copyBackRenderState, ho, hc]
      rw [hred]
      exact alookup_aupdate_ne orig.renderStates chain c crs hcne

theorem copyBackRenderState_targets_only_chain_witness :
    (copyBackRenderState demoSt 0 demoCopy).1 =
      { demoSt with renderStates := aupdate demoSt.renderStates 0 ⟨[7, 8, 9], 1⟩ } :=
  (((copyBackRenderState_targets_only_chain demoSt 0 demoCopy ⟨[7, 8, 9], 1⟩
      (by decide)).1) (by decide)).1

/-- C3 counterexample: the claim says every load failure emits a fatal notification
carrying the effect name/path; but on a fragment compile failure for effect "zzz" the
emitted fatal message is the fixed string "Could not compile fragment shader", which
contains neither the name "zzz" nor the path "../resources/effects/zzz.glsl". -/
theorem loadProgram_fatal_lacks_effect_name :
    loadProgram demoEnvFragFail "zzz" demoStZ =
      (false, demoStZ, [Ev.fatal "Could not compile fragment shader"])
    ∧ containsSubstr "zzz" "Could not compile fragment shader" = false
    ∧ containsSubstr (effectPath "zzz") "Could not compile fragment shader" = false := by
  decide

/-- C3 (amended): any load failure (missing header, missing effect file, vertex or
fragment compile failure, or link failure) aborts the whole load before the node is
touched: exactly one fatal notification with a human-readable reason is emitted (the
message carries the effect path only for a missing effect file, not for header or
compile/link failures), loadProgram returns false, the ready flag and the previously
loaded program list are unchanged, and the node paints exactly as before; the program
list is replaced only when every pass compiled and linked successfully. -/
theorem loadProgram_failure_nondestructive (env : ShaderEnv) (st : EffectNodeState)
    (e : LoadErr) (hcore : loadProgramCore env st.name = .error e) :
    loadProgram env st.name st = (false, st, [Ev.fatal (errMessage e)])
    ∧ workerLoad env st = (st, [Ev.fatal (errMessage e)])
    ∧ (workerLoad env st).1.ready = st.ready
    ∧ (workerLoad env st).1.programs = st.programs
    ∧ (∀ chain inputs, paint (workerLoad env st).1 chain inputs = paint st chain inputs) := by
  have hl : loadProgram env st.name st = (false, st, [Ev.fatal (errMessage e)]) := by
    simp [loadProgram, hcore]
  have hw : workerLoad env st = (st, [Ev.fatal (errMessage e)]) := by
    simp [workerLoad, hl]
  exact ⟨hl, hw, by rw [hw], by rw [hw], fun chain inputs => by rw [hw]⟩

theorem loadProgram_failure_nondestructive_witness :
    loadProgram demoEnvFragFail demoStZ.name demoStZ =
      (false, demoStZ, [Ev.fatal (errMessage .fragmentCompileFailed)]) :=
  (loadProgram_failure_nondestructive demoEnvFragFail demoStZ .fragmentCompileFailed
    rfl).1

/-- C4 counterexample: the claim says every key of the parsed property map is applied
to the node through its named-setter registry after a successful load; but loading a
source whose property map sets inputCount to "3" succeeds and leaves the node's
inputCount at 1 — applying the map through the registry (as the spec describes, and as
the commented-out block in loadProgram would) would have set it to 3. -/
theorem loadProgram_skips_property_application :
    alookup (parseSource srcC4).2 "inputCount" = some "3"
    ∧ (workerLoad demoEnvC4 demoStUnready).1.ready = true
    ∧ (workerLoad demoEnvC4 demoStUnready).1.inputCount = 1
    ∧ (applyProperties (parseSource srcC4).2 (workerLoad demoEnvC4 demoStUnready).1).inputCount = 3 := by
  decide

/-- C4 (amended): after a successful load the parsed property map is NOT applied to the
node (the property-application block is commented out in the source): the load replaces
only the program list and sets ready; every other field — in particular inputCount,
the name and the intensity — is unchanged, and no property name can abort the load. -/
theorem loadProgram_success_changes_only_programs (env : ShaderEnv) (st : EffectNodeState)
    (ps : List String) (hcore : loadProgramCore env st.name = .ok ps) :
    workerLoad env st = ({ st with programs := ps, ready := true }, [Ev.loaded])
    ∧ (workerLoad env st).1.inputCount = st.inputCount
    ∧ (workerLoad env st).1.name = st.name
    ∧ (workerLoad env st).1.intensity = st.intensity := by
  have hl : loadProgram env st.name st = (true, { st with programs := ps }, []) := by
    simp [loadProgram, hcore]
  have hw : workerLoad env st = ({ st with programs := ps, ready := true }, [Ev.loaded]) := by
    simp [workerLoad, hl]
  exact ⟨hw, by rw [hw], by rw [hw], by rw [hw]⟩

theorem loadProgram_success_changes_only_programs_witness :
    workerLoad demoEnvC4 demoStUnready =
      ({ demoStUnready with programs := ["HDR\n#line 0\n#line 0\nRED"], ready := true },
        [Ev.loaded]) :=
  (loadProgram_success_changes_only_programs demoEnvC4 demoStUnready
    ["HDR\n#line 0\n#line 0\nRED"] rfl).1

theorem appendToLast_ne_nil (ps : List (List String)) (s : String) (h : ps ≠ []) :
    appendToLast ps s ≠ [] := by
  cases ps with
  | nil => exact absurd rfl h
  | cons p rest => cases rest <;> simp [appendToLast]

theorem appendToLast_heads (ps : List (List String)) (s : String)
    (h : ∀ p ∈ ps, ∃ m, p.head? = some (lineMarker m)) :
    ∀ p ∈ appendToLast ps s, ∃ m, p.head? = some (lineMarker m) := by
  induction ps with
  | nil => simp [appendToLast]
  | cons p rest ih =>
    cases rest with
    | nil =>
      intro q hq
      simp only [appendToLast, List.mem_singleton] at hq
      subst hq
      obtain ⟨m, hm⟩ := h p (by simp)
      cases p with
      | nil => simp at hm
      | cons a t => exact ⟨m, by simpa using hm⟩
    | cons q rest' =>
      intro r hr
      simp only [appendToLast, List.mem_cons] at hr
      rcases hr with hr | hr
      · subst hr; exact h _ (List.mem_cons_self _ _)
      · exact ih (fun u hu => h u (by simp [hu])) r hr

theorem parseLines_inv (lines : List String) :
    ∀ (n : Nat) (ps : List (List String)) (pr : List (String × String)),
      ps ≠ [] → (∀ p ∈ ps, ∃ m, p.head? = some (lineMarker m)) →
      (parseLines lines n ps pr).1 ≠ []
      ∧ ∀ p ∈ (parseLines lines n ps pr).1, ∃ m, p.head? = some (lineMarker m) := by
  induction lines with
  | nil => intro n ps pr h1 h2; exact ⟨h1, h2⟩
  | cons ln rest ih =>
    intro n ps pr h1 h2
    cases hp : propertyMatch ln with
    | some kv =>
      have := ih (n + 1) (appendToLast ps (lineMarker n)) (ainsert pr kv.1 kv.2)
        (appendToLast_ne_nil _ _ h1) (appendToLast_heads _ _ h2)
      simpa [parseLines, hp] using this
    | none =>
      by_cases hb : bufferShaderMatch ln
      · have hne : ps ++ [[lineMarker n]] ≠ [] := by simp
        have hh : ∀ p ∈ ps ++ [[lineMarker n]], ∃ m, p.head? = some (lineMarker m) := by
          intro p hp'
          rcases List.mem_append.mp hp' with hmem | hmem
          · exact h2 p hmem
          · simp only [List.mem_singleton] at hmem
            subst hmem
            exact ⟨n, rfl⟩
        have := ih (n + 1) (ps ++ [[lineMarker n]]) pr hne hh
        simpa [parseLines, hp, hb] using this
      · have := ih (n + 1) (appendToLast ps ln) pr
          (appendToLast_ne_nil _ _ h1) (appendToLast_heads _ _ h2)
        simpa [parseLines, hp, hb] using this

theorem parseSource_inv (src : String) :
    (parseSource src).1 ≠ []
    ∧ ∀ p ∈ (parseSource src).1, ∃ m, p.head? = some (lineMarker m) := by
  refine parseLines_inv (toLines src) 0 [[lineMarker 0]] [("inputCount", "1")] (by simp) ?_
  intro p hp
  simp only [List.mem_singleton] at hp
  subst hp
  exact ⟨0, rfl⟩

theorem compileAll_no_noShaders (env : ShaderEnv) (h : String) (l : List (List String))
    (n : String) : compileAll env h l ≠ .error (.noShadersFound n) := by
  induction l with
  | nil => simp [compileAll]
  | cons p rest ih =>
    simp only [compileAll]
    by_cases hv : env.vertexOk = false
    · simp [hv]
    · simp only [hv, if_false, if_neg hv]
      by_cases hf : env.fragOk (fragSource h p) = false
      · simp [hf]
      · simp only [hf, if_false, if_neg hf]
        by_cases hl : env.linkOk (fragSource h p) = false
        · simp [hl]
        · simp only [hl, if_false, if_neg hl]
          cases hc : compileAll env h rest with
          | error e =>
            rw [hc] at ih
            simpa using ih
          | ok ps => simp

theorem compileAll_ok_length (env : ShaderEnv) (h : String) (l : List (List String))
    (ps : List String) (hok : compileAll env h l = .ok ps) : ps.length = l.length := by
  induction l generalizing ps with
  | nil =>
    simp only [compileAll] at hok
    cases hok
    rfl
  | cons p rest ih =>
    simp only [compileAll] at hok
    by_cases hv : env.vertexOk = false
    · simp [hv] at hok
    · simp only [hv, if_false, if_neg hv] at hok
      by_cases hf : env.fragOk (fragSource h p) = false
      · simp [hf] at hok
      · simp only [hf, if_false, if_neg hf] at hok
        by_cases hl : env.linkOk (fragSource h p) = false
        · simp [hl] at hok
        · simp only [hl, if_false, if_neg hl] at hok
          cases hc : compileAll env h rest with
          | error e => rw [hc] at hok; cases hok
          | ok qs =>
            rw [hc] at hok
            cases hok
            simp [ih qs hc]

/-- C9: the line parser always yields at least one pass (the pass list starts with one
open pass and #buffershader only appends further passes) and every pass body begins
with a "#line" marker line; consequently the program list built by the compile loop is
one program per pass and never empty, so loadProgram can never take the
"No shaders found" fatal branch. -/
theorem parseSource_nonempty_and_markers (src : String) :
    (parseSource src).1 ≠ []
    ∧ (∀ p ∈ (parseSource src).1, ∃ m, p.head? = some (lineMarker m))
    ∧ (∀ env name, loadProgramCore env name ≠ .error (.noShadersFound name)) := by
  refine ⟨(parseSource_inv src).1, (parseSource_inv src).2, ?_⟩
  intro env name
  unfold loadProgramCore
  cases env.header with
  | none => simp
  | some hdr =>
    cases henv : env.effectFile name with
    | none => simp
    | some src' =>
      simp only
      cases hc : compileAll env hdr (parseSource src').1 with
      | error e =>
        have := compileAll_no_noShaders env hdr (parseSource src').1 name
        rw [hc] at this
        simpa using this
      | ok ps =>
        have hlen := compileAll_ok_length env hdr (parseSource src').1 ps hc
        have hne : ps ≠ [] := by
          intro h0
          rw [h0] at hlen
          exact (parseSource_inv src').1 (List.length_eq_zero.mp hlen.symm)
        have hEmp : ps.isEmpty = false := by
          cases ps with
          | nil => exact absurd rfl hne
          | cons a t => rfl
        simp [hEmp]

theorem parseSource_nonempty_and_markers_witness :
    (parseSource "LINE").1 ≠ []
    ∧ (∃ m, (["#line 0", "LINE"] : List String).head? = some (lineMarker m))
    ∧ loadProgramCore demoEnvC4 "e" ≠ .error (.noShadersFound "e") :=
  ⟨(parseSource_nonempty_and_markers "LINE").1,
   (parseSource_nonempty_and_markers "LINE").2.1 ["#line 0", "LINE"] (by decide),
   (parseSource_nonempty_and_markers "LINE").2.2 demoEnvC4 "e"⟩

/-- C1: with P compiled passes, paint executes the passes in reverse declaration order
(the trace of pass ordinals is P-1, ..., 1, 0, and every ordinal below P occurs); pass
j renders into ring slot (ringIndex + j + 1) mod (P+1); when binding pass k's most
recent output as iChannel k it uses ring slot
(ringIndex + k + (j < k ? 1 : 0)) mod (P+1); hence a pass k that has already run this
frame (k > j, since larger ordinals run first) is read at the slot it wrote this frame,
(ringIndex + k + 1) mod (P+1), and a pass k that has not yet run this frame (k ≤ j) is
read at last frame's output slot (rPrev + k + 1) mod (P+1), where rPrev is the ring
index the previous paint ran with (ringIndex = (rPrev + 1) mod (P+1)). -/
theorem effectNode_paint_pass_order_and_slots
    (st : EffectNodeState) (chain : ChainId) (inputs : List Nat)
    (rs : EffectNodeRenderState) (rPrev k : Nat)
    (h1 : st.ready = true)
    (h2 : alookup st.renderStates chain = some rs)
    (hr : rs.textureIndex = (rPrev + 1) % (st.programs.length + 1))
    (hk : k < st.programs.length) :
    ((paint st chain inputs).trace.map PassExec.passIndex =
        (List.range st.programs.length).reverse)
    ∧ (∀ e ∈ (paint st chain inputs).trace,
        e.outSlot = (rs.textureIndex + e.passIndex + 1) % (st.programs.length + 1)
        ∧ e.chans[k]? =
            some ((rs.textureIndex + k + (if e.passIndex < k then 1 else 0)) %
              (st.programs.length + 1))
        ∧ (e.passIndex < k →
            e.chans[k]? = some ((rs.textureIndex + k + 1) % (st.programs.length + 1)))
        ∧ (k ≤ e.passIndex →
            e.chans[k]? = some ((rPrev + k + 1) % (st.programs.length + 1))))
    ∧ (∀ j, j < st.programs.length →
        ∃ e ∈ (paint st chain inputs).trace, e.passIndex = j) := by
  rw [paint_trace_reduce st chain inputs rs h1 h2]
  refine ⟨passTrace_order _ _, ?_, ?_⟩
  · intro e he
    obtain ⟨hjP, hout, hch⟩ := passTrace_elem _ _ he k hk
    refine ⟨hout, hch, ?_, ?_⟩
    · intro hjk
      rw [hch, if_pos hjk]
    · intro hkj
      rw [hch, if_neg (not_lt.mpr hkj), hr]
      congr 1
      rw [Nat.add_zero, Nat.mod_add_mod, Nat.add_right_comm]
  · intro j hj
    have hmem : j ∈ (List.range st.programs.length).reverse := by
      rw [List.mem_reverse, List.mem_range]; exact hj
    exact ⟨_, List.mem_map_of_mem _ hmem, rfl⟩

theorem effectNode_paint_pass_order_and_slots_witness :
    (paint demoSt 0 [5]).trace.map PassExec.passIndex =
      (List.range demoSt.programs.length).reverse :=
  (effectNode_paint_pass_order_and_slots demoSt 0 [5] demoRS 2 1 rfl rfl (by decide)
    (by decide)).1

theorem paint_out_of_allocated (st : EffectNodeState) (chain : ChainId)
    (inputs : List Nat) (rs : EffectNodeRenderState) (h1 : st.ready = true)
    (h2 : alookup st.renderStates chain = some rs)
    (hne : rs.intermediate.isEmpty = false) :
    (paint st chain inputs).out =
      rs.intermediate.getD ((rs.textureIndex + 1) % (st.programs.length + 1)) 0 := by
  rw [paint_ready_step st chain inputs rs h1 h2 hne]

theorem stepPaint_iter (st : EffectNodeState) (chain : ChainId) (inputs : List Nat)
    (rs : EffectNodeRenderState)
    (h1 : st.ready = true) (h2 : alookup st.renderStates chain = some rs)
    (hlen : rs.intermediate.length = st.programs.length + 1)
    (hidx : rs.textureIndex ≤ st.programs.length) :
    ∀ n : Nat,
      ((stepPaint chain inputs)^[n] st).ready = true
      ∧ ((stepPaint chain inputs)^[n] st).programs = st.programs
      ∧ alookup ((stepPaint chain inputs)^[n] st).renderStates chain =
          some ⟨rs.intermediate, (rs.textureIndex + n) % (st.programs.length + 1)⟩ := by
  intro n
  induction n with
  | zero =>
    refine ⟨h1, rfl, ?_⟩
    have hmod : (rs.textureIndex + 0) % (st.programs.length + 1) = rs.textureIndex := by
      rw [Nat.add_zero]
      exact Nat.mod_eq_of_lt (Nat.lt_succ_of_le hidx)
    rw [hmod]
    exact h2
  | succ n ih =>
    obtain ⟨ihr, ihp, ihl⟩ := ih
    rw [Function.iterate_succ_apply']
    have hne : rs.intermediate.isEmpty = false := isEmpty_false_of_length_succ hlen
    have hstep := paint_ready_step ((stepPaint chain inputs)^[n] st) chain inputs
      ⟨rs.intermediate, (rs.textureIndex + n) % (st.programs.length + 1)⟩ ihr ihl hne
    have hsome : (alookup ((stepPaint chain inputs)^[n] st).renderStates chain).isSome
        = true := by rw [ihl]; rfl
    refine ⟨?_, ?_, ?_⟩
    · simp only [stepPaint]; rw [hstep]; exact ihr
    · simp only [stepPaint]; rw [hstep]; exact ihp
    · simp only [stepPaint]; rw [hstep]
      rw [alookup_aupdate_self _ chain _ hsome]
      rw [ihp]
      rw [Nat.mod_add_mod]
      rfl

theorem effectNode_paint_ring_cycle_aux (st : EffectNodeState) (chain : ChainId)
    (inputs : List Nat) (rs : EffectNodeRenderState)
    (h1 : st.ready = true) (h2 : alookup st.renderStates chain = some rs)
    (hlen : rs.intermediate.length = st.programs.length + 1)
    (hidx : rs.textureIndex ≤ st.programs.length) (t : Nat) :
    (paint ((stepPaint chain inputs)^[t] st) chain inputs).out =
      rs.intermediate.getD
        ((rs.textureIndex + t + 1) % (st.programs.length + 1)) 0 := by
  have hne : rs.intermediate.isEmpty = false := isEmpty_false_of_length_succ hlen
  obtain ⟨hrdy, hprog, hl⟩ := stepPaint_iter st chain inputs rs h1 h2 hlen hidx t
  have ho := paint_out_of_allocated ((stepPaint chain inputs)^[t] st) chain inputs
    ⟨rs.intermediate, (rs.textureIndex + t) % (st.programs.length + 1)⟩ hrdy hl hne
  dsimp only at ho
  rw [ho, hprog, Nat.mod_add_mod]

/-- C2: with P compiled passes and an attached, allocated chain, every successful paint
call returns the texture stored at ring slot (ringIndex + 1) mod (P+1) and then
advances ringIndex by exactly 1 mod (P+1); the ring cursor always stays in [0, P];
P+1 consecutive paint calls return the ring cursor (indeed the whole render state) to
its original value; and the returned texture handles cycle with period P+1. -/
theorem effectNode_paint_ring_cycle (st : EffectNodeState) (chain : ChainId)
    (inputs : List Nat) (rs : EffectNodeRenderState)
    (h1 : st.ready = true) (h2 : alookup st.renderStates chain = some rs)
    (hlen : rs.intermediate.length = st.programs.length + 1)
    (hidx : rs.textureIndex ≤ st.programs.length) :
    ((paint st chain inputs).out =
        rs.intermediate.getD ((rs.textureIndex + 1) % (st.programs.length + 1)) 0)
    ∧ (alookup (paint st chain inputs).state.renderStates chain =
        some ⟨rs.intermediate, (rs.textureIndex + 1) % (st.programs.length + 1)⟩)
    ∧ (∀ n rs', alookup ((stepPaint chain inputs)^[n] st).renderStates chain = some rs' →
        rs'.textureIndex ≤ st.programs.length)
    ∧ (alookup
        ((stepPaint chain inputs)^[st.programs.length + 1] st).renderStates chain =
        some rs)
    ∧ (∀ t, (paint ((stepPaint chain inputs)^[t + (st.programs.length + 1)] st)
          chain inputs).out
        = (paint ((stepPaint chain inputs)^[t] st) chain inputs).out) := by
  have hne : rs.intermediate.isEmpty = false := isEmpty_false_of_length_succ hlen
  have hstep := paint_ready_step st chain inputs rs h1 h2 hne
  have hiter := stepPaint_iter st chain inputs rs h1 h2 hlen hidx
  refine ⟨by rw [hstep], ?_, ?_, ?_, ?_⟩
  · rw [hstep]
    have hsome : (alookup st.renderStates chain).isSome = true := by rw [h2]; rfl
    exact alookup_aupdate_self st.renderStates chain _ hsome
  · intro n rs' hl
    have hn := (hiter n).2.2
    rw [hl] at hn
    have h' := Option.some.inj hn
    rw [h']
    exact Nat.lt_succ_iff.mp (Nat.mod_lt _ (Nat.succ_pos _))
  · have hn := (hiter (st.programs.length + 1)).2.2
    have hmod : (rs.textureIndex + (st.programs.length + 1)) % (st.programs.length + 1)
        = rs.textureIndex := by
      rw [Nat.add_mod_right]
      exact Nat.mod_eq_of_lt (Nat.lt_succ_of_le hidx)
    rw [hmod] at hn
    exact hn
  · intro t
    rw [effectNode_paint_ring_cycle_aux st chain inputs rs h1 h2 hlen hidx t,
      effectNode_paint_ring_cycle_aux st chain inputs rs h1 h2 hlen hidx
        (t + (st.programs.length + 1))]
    congr 1
    have harr : rs.textureIndex + (t + (st.programs.length + 1)) + 1
        = rs.textureIndex + t + 1 + (st.programs.length + 1) := by omega
    rw [harr, Nat.add_mod_right]

theorem effectNode_paint_ring_cycle_witness :
    (paint demoSt 0 [5]).out =
      demoRS.intermediate.getD
        ((demoRS.textureIndex + 1) % (demoSt.programs.length + 1)) 0 :=
  (effectNode_paint_ring_cycle demoSt 0 [5] demoRS rfl rfl (by decide) (by decide)).1

end Radiance
